import Mathlib

/-!
Verification of the pipeline runner (core/services/pipeline/runner.go).

The development shallowly embeds the runner: Go time is a logical clock
advanced by one on each time.Now() call; goroutine bodies become pure
functions (a worker that traps a panic becomes a function on a sum type
of normal results and panic values); the external collaborators that the
runner consumes only through interfaces — the DAG parser Parse, the
scheduler's emission of runnable task descriptors, TaskRunResults.FinalResult
and the ORM — are universally quantified parameters collected in Externals.
Prometheus metric calls and logging are side effects with no data flow into
the runner's results and are not modelled.
-/

namespace PipelineProof

/-- Logical instant: the value returned by one call of time.Now(). -/
abbrev Time := Nat

/-- Clock state; advanced by one on every time.Now() call, so later calls
return strictly larger instants. -/
abbrev Clock := Nat

/-- Models time.Now(): yields the current instant and the advanced clock. -/
def tick (c : Clock) : Time × Clock := (c, c + 1)

/-- Go error values reachable in the runner: ErrRunPanicked, the panicError
wrapper produced by the worker's recover, errors.Wrapf wrapping, and opaque
errors from external collaborators (parse errors, database errors). -/
inductive GoError where
  | errRunPanicked : GoError
  | panicError (v : String) : GoError
  | wrapped (msg : String) (cause : GoError) : GoError
  | other (s : String) : GoError
  deriving DecidableEq, Repr

/-- Go interface value carried in a Result; nil is Option.none at the use
sites. -/
inductive GoVal where
  | str (s : String) : GoVal
  | bytes (b : List Nat) : GoVal
  | num (n : Int) : GoVal
  deriving DecidableEq, Repr

/-- Result is the value-or-error pair {Value interface\x7b\x7d; Error error}. -/
structure Result where
  value : Option GoVal := none
  error : Option GoError := none
  deriving DecidableEq, Repr

/-- Closed set of task type tags; the runner inspects only HTTP and Bridge
(for config injection), all other types are opaque. -/
inductive TaskType where
  | http : TaskType
  | bridge : TaskType
  | otherType (s : String) : TaskType
  deriving DecidableEq, Repr

/-- The caller-provided context as the executor sees it: only its deadline
is observable through the task-context selection. -/
structure CallerCtx where
  deadline : Option Int := none
  deriving DecidableEq, Repr

/-- The context value passed to Task.Run by executeTaskRun: either the
caller's ctx untouched, or a context built by utils.CombinedContext from the
runner's chStop together with a timeout duration (the caller ctx is not among
the combined signals at these call sites). -/
inductive TaskCtx where
  | original (c : CallerCtx) : TaskCtx
  | combinedStop (d : Int) : TaskCtx
  deriving DecidableEq, Repr

/-- The shared variable bag passed through to Task.Run; opaque to the
runner. -/
abbrev Vars := List (String × GoVal)

/-- Opaque Meta object carried from the run caller to every Task.Run. -/
structure JSONSerializable where
  val : Option GoVal := none
  deriving DecidableEq, Repr

/-- Outcome of one invocation of Task.Run: a returned Result, or a Go panic
carrying a panic value (rendered as a string, as the worker only ever
formats it). -/
inductive RunOutcome where
  | ok (r : Result) : RunOutcome
  | panicked (v : String) : RunOutcome

/-- Task is the external task contract: Type(), DotID(), TaskTimeout()
(modelled as Option: some d iff the bool is true), and Run. The config
fields that executeRun injects into HTTP/Bridge instances are runner-external
resources with no flow into any claim and are not carried. -/
structure Task where
  dotID : String
  ttype : TaskType
  taskTimeout : Option Int
  runFn : TaskCtx → Vars → JSONSerializable → List Result → RunOutcome

/-- TaskRunResult as built by the runner: {Task, Result, CreatedAt,
FinishedAt}. An unassigned Go time.Time field is the zero time, modelled
as instant 0. -/
structure TaskRunResult where
  task : Task
  result : Result
  createdAt : Time
  finishedAt : Time

/-- One collected predecessor result tagged with its edge index (int32 in
the source; no arithmetic is performed on it, only comparison, so Int is a
faithful model). -/
structure input where
  result : Result
  index : Int
  deriving DecidableEq, Repr

/-- memoryTaskRun: the runnable descriptor emitted by the scheduler. -/
structure memoryTaskRun where
  task : Task
  inputs : List input
  vars : Vars

/-- The comparison sort.Slice uses inside memoryTaskRun.inputsSorted,
as a non-strict relation suitable for a correct comparison sort. -/
def leIdx (a b : input) : Prop := a.index ≤ b.index

instance : DecidableRel leIdx := fun a b => inferInstanceAs (Decidable (a.index ≤ b.index))

instance : IsTotal input leIdx := ⟨fun a b => Int.le_total a.index b.index⟩

instance : IsTrans input leIdx := ⟨fun _ _ _ h1 h2 => le_trans h1 h2⟩

/-- Strict version of leIdx, used to show sorting is unique when edge
indices are pairwise distinct. -/
def ltIdx (a b : input) : Prop := a.index < b.index

instance : IsAntisymm input ltIdx :=
  ⟨fun _ _ h1 h2 => absurd (lt_trans h1 h2) (lt_irrefl _)⟩

/-- memoryTaskRun.inputsSorted: copies the inputs, sorts them ascending by
edge index (sort.Slice with a strict less; modelled by a correct comparison
sort under the non-strict relation), and projects the Results. -/
def memoryTaskRun.inputsSorted (m : memoryTaskRun) : List Result :=
  (List.insertionSort leIdx m.inputs).map input.result

/-- Spec: immutable input of a run. maxTaskDuration models
models.Interval (an int64 duration; 0 means unset). -/
structure Spec where
  id : Int
  jobID : Int
  jobName : String
  dotDagSource : String
  maxTaskDuration : Int
  deriving DecidableEq, Repr

/-- Parsed DAG: the ordered tasks (edges live behind the scheduler
abstraction and are not needed by any claim). -/
structure Pipeline where
  tasks : List Task

/-- FinalResult with its Outputs and Errors sequences; OutputsDB/ErrorsDB
serialization is modelled as the field projections. -/
structure FinalResult where
  outputs : List (Option GoVal) := []
  errors : List (Option GoError) := []

/-- The Go zero value of FinalResult, returned by ExecuteAndInsertFinishedRun
when its named return is never assigned. -/
def FinalResult.zero : FinalResult := {}

/-- Run record: pipeline spec id, created-at, finished-at pointer (Option),
serialized outputs and errors. Unset Go fields are zero values. -/
structure Run where
  id : Int := 0
  pipelineSpecID : Int := 0
  createdAt : Time := 0
  finishedAt : Option Time := none
  outputs : List (Option GoVal) := []
  errors : List (Option GoError) := []

/-- External collaborators of the runner, consumed only through their
interfaces: Parse, the scheduler's emission of runnable descriptors for a
parsed DAG and seed input, TaskRunResults.FinalResult, and
ORM.InsertFinishedRun (returning a run id and an optional error). -/
structure Externals where
  parse : String → Except GoError Pipeline
  schedule : Pipeline → Option GoVal → List memoryTaskRun
  finalResult : List TaskRunResult → FinalResult
  insertFinishedRun : Run → List TaskRunResult → Bool → Int × Option GoError

/-- Result tuple of one executeRun attempt: (run, trrs, retry, err). -/
structure ExecuteRunOut where
  run : Run
  trrs : List TaskRunResult
  retry : Bool
  err : Option GoError

/-- Observable control-flow events of executeRun, used to state that the
parse-error path constructs no scheduler, primes no task and spawns no
worker. -/
inductive Event where
  | parsed : Event
  | primedTasks : Event
  | schedulerConstructed : Event
  | workerSpawned (dotID : String) : Event
  deriving DecidableEq, Repr

/-- The timeout-precedence context selection of executeTaskRun: the task's
own TaskTimeout if set, else CombinedContext(chStop, spec.MaxTaskDuration)
if that is non-zero, else the passed-in ctx untouched. -/
def taskCtx (spec : Spec) (task : Task) (ctx : CallerCtx) : TaskCtx :=
  match task.taskTimeout with
  | some d => TaskCtx.combinedStop d
  | none =>
      if spec.maxTaskDuration ≠ 0 then TaskCtx.combinedStop spec.maxTaskDuration
      else TaskCtx.original ctx

/-- The deadline in force on the context passed to Task.Run. -/
def effectiveDeadline : TaskCtx → Option Int
  | TaskCtx.combinedStop d => some d
  | TaskCtx.original c => c.deadline

/-- Whether the context passed to Task.Run has the runner's chStop among its
cancellation signals. -/
def composesChStop : TaskCtx → Bool
  | TaskCtx.combinedStop _ => true
  | TaskCtx.original _ => false

/-- The arguments executeTaskRun hands to Task.Run: the selected context and
the inputs sorted by edge index. -/
def taskRunArgs (spec : Spec) (m : memoryTaskRun) (ctx : CallerCtx) :
    TaskCtx × List Result :=
  (taskCtx spec m.task ctx, m.inputsSorted)

/-- Result of executeTaskRun as seen by the worker: the TaskRunResult it
returns, or the panic that escaped Task.Run before the return was built. -/
inductive ExecOutcome where
  | ok (trr : TaskRunResult) : ExecOutcome
  | panicked (v : String) : ExecOutcome

/-- executeTaskRun: record the start instant, select the context by timeout
precedence, invoke Task.Run on the sorted inputs, and build the
TaskRunResult with CreatedAt = start and FinishedAt = now. A panic inside
Task.Run aborts before the final now() call. -/
def executeTaskRun (spec : Spec) (m : memoryTaskRun) (meta : JSONSerializable)
    (ctx : CallerCtx) (c : Clock) : ExecOutcome × Clock :=
  let (start, c1) := tick c
  match m.task.runFn (taskRunArgs spec m ctx).1 m.vars meta (taskRunArgs spec m ctx).2 with
  | RunOutcome.panicked v => (ExecOutcome.panicked v, c1)
  | RunOutcome.ok result =>
      let (fin, c2) := tick c1
      (ExecOutcome.ok { task := m.task, result := result, createdAt := start, finishedAt := fin },
       c2)

/-- The worker goroutine body spawned per runnable descriptor (the deferred
recover plus executeTaskRun): a trapped panic is posted as a synthetic
TaskRunResult whose Result.Error is panicError of the panic value; the
source omits CreatedAt in that composite literal (TODO in the source), so it
is the Go zero time. -/
def worker (spec : Spec) (m : memoryTaskRun) (meta : JSONSerializable)
    (ctx : CallerCtx) (c : Clock) : TaskRunResult × Clock :=
  match executeTaskRun spec m meta ctx c with
  | (ExecOutcome.ok trr, c1) => (trr, c1)
  | (ExecOutcome.panicked v, c1) =>
      let (fin, c2) := tick c1
      ({ task := m.task,
         result := { value := none, error := some (GoError.panicError v) },
         createdAt := 0, finishedAt := fin }, c2)

/-- The dispatch loop's workers, sequentialized over the scheduler's
emission order (the claims under proof concern only worker-local behavior
and the runner's control flow, which are interleaving-independent). -/
def runWorkers (spec : Spec) (meta : JSONSerializable) (ctx : CallerCtx) :
    List memoryTaskRun → Clock → List TaskRunResult × Clock
  | [], c => ([], c)
  | m :: ms, c =>
      let (trr, c1) := worker spec m meta ctx c
      let (rest, c2) := runWorkers spec meta ctx ms c1
      (trr :: rest, c2)

/-- executeRun: one attempt of a pipeline run. Records startRun, builds the
Run bound to spec.ID, parses the DAG (on failure: return the parse error
untouched, retry = false, no further step), injects config into HTTP/Bridge
tasks (the primedTasks event; the injected resources are runner-external),
constructs and runs the scheduler, spawns one worker per emitted descriptor,
then stamps FinishedAt and stores the FinalResult's outputs and errors.
Both return paths yield retry = false. -/
def executeRun (E : Externals) (spec : Spec) (pipelineInput : Option GoVal)
    (meta : JSONSerializable) (ctx : CallerCtx) (c : Clock) :
    (ExecuteRunOut × List Event) × Clock :=
  let (startRun, c1) := tick c
  let run0 : Run := { pipelineSpecID := spec.id, createdAt := startRun }
  match E.parse spec.dotDagSource with
  | Except.error e =>
      (({ run := run0, trrs := [], retry := false, err := some e }, [Event.parsed]), c1)
  | Except.ok p =>
      let taskRuns := E.schedule p pipelineInput
      let (trrs, c2) := runWorkers spec meta ctx taskRuns c1
      let (finishRun, c3) := tick c2
      let fr := E.finalResult trrs
      (({ run := { run0 with
                    errors := fr.errors, outputs := fr.outputs,
                    finishedAt := some finishRun },
          trrs := trrs, retry := false, err := none },
        [Event.parsed, Event.primedTasks, Event.schedulerConstructed] ++
          taskRuns.map fun m => Event.workerSpawned m.task.dotID), c3)

/-- numPanicRetries in ExecuteRun. -/
def numPanicRetries : Nat := 5

/-- State at exit of the panic-retry loop: the Go loop variable i, the
number of executeRun invocations performed, and the last attempt's output
(none iff the loop exhausted its bound with every attempt retrying). -/
structure LoopExit where
  i : Nat
  calls : Nat
  out : Option ExecuteRunOut

/-- The for-loop of ExecuteRun: run the attempt; on retry sleep (no clock
effect: the logical clock counts time.Now() calls) and continue, otherwise
break keeping the attempt's output. The fuel is numPanicRetries minus the
iterations already performed. -/
def panicRetryLoop (attempt : Clock → ExecuteRunOut × Clock) :
    Nat → Nat → Clock → LoopExit × Clock
  | i, 0, c => ({ i := i, calls := 0, out := none }, c)
  | i, fuel + 1, c =>
      let r := attempt c
      if r.1.retry then
        let rest := panicRetryLoop attempt (i + 1) fuel r.2
        ({ i := rest.1.i, calls := rest.1.calls + 1, out := rest.1.out }, rest.2)
      else ({ i := i, calls := 1, out := some r.1 }, r.2)

/-- Clock after iterating the attempt a given number of times. -/
def iterClock (attempt : Clock → ExecuteRunOut × Clock) : Nat → Clock → Clock
  | 0, c => c
  | fuel + 1, c => iterClock attempt fuel (attempt c).2

/-- The per-task loop of panickedRunResults: for each task of the parsed
DAG, one TaskRunResult with Result{Value: nil, Error: ErrRunPanicked},
CreatedAt the shared instant f, FinishedAt a fresh now() per task. -/
def mkPanickedTrrs (f : Time) : List Task → Clock → List TaskRunResult × Clock
  | [], c => ([], c)
  | t :: ts, c =>
      let (fin, c1) := tick c
      let (rest, c2) := mkPanickedTrrs f ts c1
      ({ task := t,
         result := { value := none, error := some GoError.errRunPanicked },
         createdAt := f, finishedAt := fin } :: rest, c2)

/-- panickedRunResults: synthesize an errored run from the spec. The Run is
bound to spec.ID with CreatedAt = now() and FinishedAt pointing at
CreatedAt; spec.Pipeline() re-parses the DAG source (modelled by the
external parse); on its failure the run is returned with nil results and
the error; otherwise every task gets an ErrRunPanicked TaskRunResult and
the FinalResult's outputs and errors are stored on the Run. -/
def panickedRunResults (E : Externals) (spec : Spec) (c : Clock) :
    (Run × List TaskRunResult × Option GoError) × Clock :=
  let (t0, c1) := tick c
  let run0 : Run := { pipelineSpecID := spec.id, createdAt := t0, finishedAt := some t0 }
  match E.parse spec.dotDagSource with
  | Except.error e => ((run0, [], some e), c1)
  | Except.ok p =>
      let (f, c2) := tick c1
      let (trrs, c3) := mkPanickedTrrs f p.tasks c2
      let fr := E.finalResult trrs
      (({ run0 with outputs := fr.outputs, errors := fr.errors }, trrs, none), c3)

/-- The attempt function ExecuteRun's loop body runs: executeRun with the
events dropped. -/
def execAttempt (E : Externals) (spec : Spec) (pipelineInput : Option GoVal)
    (meta : JSONSerializable) (ctx : CallerCtx) : Clock → ExecuteRunOut × Clock :=
  fun c =>
    let r := executeRun E spec pipelineInput meta ctx c
    (r.1.1, r.2)

/-- ExecuteRun's body, generic in the attempt the loop runs: iterate the
panic-retry loop from i = 0 with numPanicRetries iterations available; if
the loop exhausted the bound (i == numPanicRetries in the source) return
panickedRunResults, otherwise return the last attempt's run, results and
error. -/
def ExecuteRunG (attempt : Clock → ExecuteRunOut × Clock) (E : Externals)
    (spec : Spec) (c : Clock) : (Run × List TaskRunResult × Option GoError) × Clock :=
  match panicRetryLoop attempt 0 numPanicRetries c with
  | ({ out := some out, .. }, c1) => ((out.run, out.trrs, out.err), c1)
  | ({ out := none, .. }, c1) => panickedRunResults E spec c1

/-- ExecuteRun: the retry loop over executeRun attempts. -/
def ExecuteRun (E : Externals) (spec : Spec) (pipelineInput : Option GoVal)
    (meta : JSONSerializable) (ctx : CallerCtx) (c : Clock) :
    (Run × List TaskRunResult × Option GoError) × Clock :=
  ExecuteRunG (execAttempt E spec pipelineInput meta ctx) E spec c

/-- errors.Wrapf message on the ExecuteRun failure path of
ExecuteAndInsertFinishedRun. -/
def wrapExecErr (spec : Spec) (e : GoError) : GoError :=
  GoError.wrapped ("error executing run for spec ID " ++ toString spec.id) e

/-- errors.Wrapf message on the InsertFinishedRun failure path of
ExecuteAndInsertFinishedRun. -/
def wrapInsertErr (spec : Spec) (e : GoError) : GoError :=
  GoError.wrapped ("error inserting finished results for spec ID " ++ toString spec.id) e

/-- ExecuteAndInsertFinishedRun: run ExecuteRun; on its error return
(run.ID, zero FinalResult, wrapped error); otherwise compute the
FinalResult from the task run results, then attempt the insert; on insert
error return the insert's run id, the already computed FinalResult and the
wrapped error; on success return (runID, finalResult, nil). -/
def ExecuteAndInsertFinishedRun (E : Externals) (spec : Spec)
    (pipelineInput : Option GoVal) (meta : JSONSerializable) (ctx : CallerCtx)
    (saveSuccessfulTaskRuns : Bool) (c : Clock) :
    (Int × FinalResult × Option GoError) × Clock :=
  let ((run, trrs, err), c1) := ExecuteRun E spec pipelineInput meta ctx c
  match err with
  | some e => ((run.id, FinalResult.zero, some (wrapExecErr spec e)), c1)
  | none =>
      let finalResult := E.finalResult trrs
      let (runID, ierr) := E.insertFinishedRun run trrs saveSuccessfulTaskRuns
      match ierr with
      | some e => ((runID, finalResult, some (wrapInsertErr spec e)), c1)
      | none => ((runID, finalResult, none), c1)

/-! Concrete fixtures used by witnesses and counterexamples. -/

/-- A task body that returns the empty Result. -/
def noopRun : TaskCtx → Vars → JSONSerializable → List Result → RunOutcome :=
  fun _ _ _ _ => RunOutcome.ok {}

/-- A task body that panics with value "boom". -/
def boomRun : TaskCtx → Vars → JSONSerializable → List Result → RunOutcome :=
  fun _ _ _ _ => RunOutcome.panicked "boom"

/-- A task with no declared timeout. -/
def taskA : Task :=
  { dotID := "a", ttype := TaskType.http, taskTimeout := none, runFn := noopRun }

/-- A task declaring a 1 (ms) timeout. -/
def taskT1 : Task :=
  { dotID := "t", ttype := TaskType.otherType "median", taskTimeout := some 1, runFn := noopRun }

/-- A task whose body panics. -/
def taskBoom : Task :=
  { dotID := "b", ttype := TaskType.otherType "x", taskTimeout := none, runFn := boomRun }

/-- A spec with MaxTaskDuration unset (zero). -/
def specZero : Spec :=
  { id := 42, jobID := 1, jobName := "job", dotDagSource := "dag", maxTaskDuration := 0 }

/-- A spec declaring a 3600 (s, i.e. 1 h) MaxTaskDuration. -/
def specHour : Spec :=
  { id := 43, jobID := 1, jobName := "job", dotDagSource := "dag", maxTaskDuration := 3600 }

/-- One-task parsed DAG. -/
def pipeA : Pipeline := { tasks := [taskA] }

/-- Empty caller context. -/
def ctxZ : CallerCtx := {}

/-- Empty meta. -/
def metaZ : JSONSerializable := {}

/-- Externals where everything succeeds. -/
def extOk : Externals :=
  { parse := fun _ => Except.ok pipeA,
    schedule := fun p _ => p.tasks.map fun t => { task := t, inputs := [], vars := [] },
    finalResult := fun _ => {},
    insertFinishedRun := fun _ _ _ => (7, none) }

/-- Externals whose parse fails. -/
def extParseFail : Externals :=
  { extOk with parse := fun _ => Except.error (GoError.other "bad dag") }

/-- Externals whose insert fails. -/
def extInsertFail : Externals :=
  { extOk with insertFinishedRun := fun _ _ _ => (0, some (GoError.other "db down")) }

/-- An attempt that always signals retry. -/
def alwaysRetryAttempt : Clock → ExecuteRunOut × Clock :=
  fun c => ({ run := {}, trrs := [], retry := true, err := none }, c + 1)

/-- Predecessor result at edge index 0. -/
def inX : input := { result := { value := some (GoVal.num 21) }, index := 0 }

/-- Predecessor result at edge index 1. -/
def inY : input := { result := { value := some (GoVal.num 19) }, index := 1 }

/-- Descriptor whose inputs were collected in declared edge order. -/
def mOrd : memoryTaskRun := { task := taskA, inputs := [inX, inY], vars := [] }

/-- The same descriptor with inputs collected in reversed temporal order. -/
def mRev : memoryTaskRun := { task := taskA, inputs := [inY, inX], vars := [] }

/-- Descriptor for the no-timeout task. -/
def mA : memoryTaskRun := { task := taskA, inputs := [], vars := [] }

/-- Descriptor for the panicking task. -/
def mBoom : memoryTaskRun := { task := taskBoom, inputs := [], vars := [] }

/-- The Run produced by executeRun under extOk from clock 0. -/
def runZ : Run :=
  { id := 0, pipelineSpecID := 42, createdAt := 0, finishedAt := some 3,
    outputs := [], errors := [] }

/-- The TaskRunResult produced by extOk's single worker from clock 0. -/
def trrZ : TaskRunResult :=
  { task := taskA, result := {}, createdAt := 1, finishedAt := 2 }

/-- The Run produced by executeRun under extParseFail from clock 0. -/
def runP : Run :=
  { id := 0, pipelineSpecID := 42, createdAt := 0, finishedAt := none,
    outputs := [], errors := [] }

/-! Helper lemmas. -/

/-- If every attempt signals retry, the loop consumes its whole fuel, the
Go loop variable advances by the fuel, no output survives, and the clock is
the fuel-fold of the attempt's clock effect. -/
theorem panicRetryLoop_all_retry (attempt : Clock → ExecuteRunOut × Clock)
    (h : ∀ c, (attempt c).1.retry = true) :
    ∀ (fuel i : Nat) (c : Clock),
      panicRetryLoop attempt i fuel c =
        ({ i := i + fuel, calls := fuel, out := none }, iterClock attempt fuel c) := by
  intro fuel
  induction fuel with
  | zero => intro i c; rfl
  | succ fuel ih =>
      intro i c
      have hr := h c
      simp only [panicRetryLoop, hr, if_true, ih (i + 1) (attempt c).2, iterClock]
      refine congrArg (fun n => ((⟨n, fuel + 1, none⟩ : LoopExit), _)) ?_
      omega

/-- If the attempt at the current clock does not signal retry, the loop
exits immediately with one call made. -/
theorem panicRetryLoop_noRetry (attempt : Clock → ExecuteRunOut × Clock)
    (i fuel : Nat) (c : Clock) (h : (attempt c).1.retry = false) :
    panicRetryLoop attempt i (fuel + 1) c =
      ({ i := i, calls := 1, out := some (attempt c).1 }, (attempt c).2) := by
  simp only [panicRetryLoop, h, if_false, Bool.false_eq_true]

/-- The panicked task-run synthesis: one TaskRunResult per task, in task
order, each carrying Value nil and Error ErrRunPanicked. -/
theorem mkPanickedTrrs_spec (f : Time) :
    ∀ (ts : List Task) (c : Clock),
      ((mkPanickedTrrs f ts c).1.map fun trr => trr.task) = ts ∧
      ∀ trr ∈ (mkPanickedTrrs f ts c).1,
        trr.result.error = some GoError.errRunPanicked ∧ trr.result.value = none := by
  intro ts
  induction ts with
  | nil => exact fun c => ⟨rfl, by intro trr h; cases h⟩
  | cons t ts ih =>
      intro c
      have iht := ih (c + 1)
      constructor
      · simp only [mkPanickedTrrs, tick, List.map]
        exact congrArg (t :: ·) iht.1
      · intro trr hmem
        simp only [mkPanickedTrrs, tick, List.mem_cons] at hmem
        cases hmem with
        | inl h => rw [h]; exact ⟨rfl, rfl⟩
        | inr h => exact iht.2 trr h

/-- panickedRunResults under a successful re-parse: the error slot is nil
and the TaskRunResults cover the parsed tasks, each marked ErrRunPanicked
with nil Value. -/
theorem panickedRunResults_ok (E : Externals) (spec : Spec) (c : Clock) (p : Pipeline)
    (hp : E.parse spec.dotDagSource = Except.ok p) :
    ∃ run trrs c1,
      panickedRunResults E spec c = ((run, trrs, none), c1) ∧
      (trrs.map fun trr => trr.task) = p.tasks ∧
      ∀ trr ∈ trrs, trr.result.error = some GoError.errRunPanicked ∧
        trr.result.value = none := by
  have heq : panickedRunResults E spec c =
      (({ pipelineSpecID := spec.id, createdAt := c, finishedAt := some c,
          outputs := (E.finalResult (mkPanickedTrrs (c + 1) p.tasks (c + 2)).1).outputs,
          errors := (E.finalResult (mkPanickedTrrs (c + 1) p.tasks (c + 2)).1).errors },
        (mkPanickedTrrs (c + 1) p.tasks (c + 2)).1, none),
       (mkPanickedTrrs (c + 1) p.tasks (c + 2)).2) := by
    unfold panickedRunResults tick
    rw [hp]
  exact ⟨_, _, _, heq, (mkPanickedTrrs_spec (c + 1) p.tasks (c + 2)).1,
    (mkPanickedTrrs_spec (c + 1) p.tasks (c + 2)).2⟩

/-! Claim theorems. -/

/-- C3: for every task invocation in executeTaskRun the effective deadline
is chosen from the first source that declares one, in strict order: the
task's own TaskTimeout if set; otherwise the spec-wide MaxTaskDuration if
non-zero; otherwise the caller-provided context's deadline is left in
force. -/
theorem timeout_precedence (spec : Spec) (task : Task) (ctx : CallerCtx) :
    (∀ d, task.taskTimeout = some d →
        taskCtx spec task ctx = TaskCtx.combinedStop d ∧
        effectiveDeadline (taskCtx spec task ctx) = some d) ∧
    (task.taskTimeout = none → spec.maxTaskDuration ≠ 0 →
        taskCtx spec task ctx = TaskCtx.combinedStop spec.maxTaskDuration ∧
        effectiveDeadline (taskCtx spec task ctx) = some spec.maxTaskDuration) ∧
    (task.taskTimeout = none → spec.maxTaskDuration = 0 →
        taskCtx spec task ctx = TaskCtx.original ctx ∧
        effectiveDeadline (taskCtx spec task ctx) = ctx.deadline) := by
  refine ⟨?_, ?_, ?_⟩
  · intro d hd
    simp [taskCtx, hd, effectiveDeadline]
  · intro hnone hnz
    simp [taskCtx, hnone, hnz, effectiveDeadline]
  · intro hnone hz
    simp [taskCtx, hnone, hz, effectiveDeadline]

/-- Witness for C3: a task declaring a 1 ms timeout under a spec declaring
1 h and a context with no deadline gets the 1 ms deadline. -/
theorem timeout_precedence_witness :
    taskT1.taskTimeout = some 1 ∧
    (taskCtx specHour taskT1 ctxZ = TaskCtx.combinedStop 1 ∧
     effectiveDeadline (taskCtx specHour taskT1 ctxZ) = some 1) :=
  ⟨rfl, (timeout_precedence specHour taskT1 ctxZ).1 1 rfl⟩

/-- C4 counterexample: with no task timeout and MaxTaskDuration zero, the
context handed to Task.Run is the caller's context untouched, so chStop is
not among its cancellation signals — the claim that chStop is always
composed fails at this input. -/
theorem chstop_not_composed_counterexample :
    composesChStop (taskCtx specZero taskA ctxZ) = false ∧
    taskCtx specZero taskA ctxZ = TaskCtx.original ctxZ :=
  ⟨rfl, rfl⟩

/-- C4 amended: the executor composes chStop with the chosen timeout
exactly when the task declares a timeout or the spec's MaxTaskDuration is
non-zero; otherwise the caller's context is passed through without chStop. -/
theorem chstop_composed_iff_timeout (spec : Spec) (task : Task) (ctx : CallerCtx) :
    composesChStop (taskCtx spec task ctx) =
      (task.taskTimeout.isSome || !(spec.maxTaskDuration == 0)) := by
  cases hd : task.taskTimeout with
  | some d => simp [taskCtx, hd, composesChStop]
  | none =>
      by_cases hz : spec.maxTaskDuration = 0
      · simp [taskCtx, hd, hz, composesChStop]
      · simp [taskCtx, hd, hz, composesChStop]

/-- C5: the inputs argument executeTaskRun passes to Task.Run is the
sequence of the inputs' Result values sorted ascending by edge index — a
sorted permutation of the collected inputs — and, when the edge indices
are pairwise distinct, it does not depend on the order in which the inputs
were collected. -/
theorem inputs_sorted_by_edge_index (m : memoryTaskRun) :
    (∃ l : List input, List.Perm l m.inputs ∧ List.Sorted leIdx l ∧
        m.inputsSorted = l.map input.result) ∧
    (∀ spec ctx, (taskRunArgs spec m ctx).2 = m.inputsSorted) ∧
    (∀ mo : memoryTaskRun, List.Perm mo.inputs m.inputs →
        List.Pairwise (fun a b => a.index ≠ b.index) m.inputs →
        mo.inputsSorted = m.inputsSorted) := by
  refine ⟨⟨List.insertionSort leIdx m.inputs, List.perm_insertionSort leIdx m.inputs,
      List.sorted_insertionSort leIdx m.inputs, rfl⟩, fun _ _ => rfl, ?_⟩
  intro mo hperm hnd
  have hperm2 : List.Perm (List.insertionSort leIdx mo.inputs)
      (List.insertionSort leIdx m.inputs) :=
    ((List.perm_insertionSort leIdx mo.inputs).trans hperm).trans
      (List.perm_insertionSort leIdx m.inputs).symm
  have hndm : List.Pairwise (fun a b => a.index ≠ b.index)
      (List.insertionSort leIdx m.inputs) :=
    ((List.perm_insertionSort leIdx m.inputs).pairwise_iff
      (fun h => Ne.symm h)).mpr hnd
  have hndmo : List.Pairwise (fun a b => a.index ≠ b.index)
      (List.insertionSort leIdx mo.inputs) :=
    (((List.perm_insertionSort leIdx mo.inputs).trans hperm).pairwise_iff
      (fun h => Ne.symm h)).mpr hnd
  have hs1 : List.Sorted ltIdx (List.insertionSort leIdx m.inputs) :=
    List.Pairwise.imp₂ (fun _ _ h1 h2 => lt_of_le_of_ne h1 h2)
      (List.sorted_insertionSort leIdx m.inputs) hndm
  have hs2 : List.Sorted ltIdx (List.insertionSort leIdx mo.inputs) :=
    List.Pairwise.imp₂ (fun _ _ h1 h2 => lt_of_le_of_ne h1 h2)
      (List.sorted_insertionSort leIdx mo.inputs) hndmo
  have hsame : List.insertionSort leIdx mo.inputs = List.insertionSort leIdx m.inputs :=
    List.eq_of_perm_of_sorted hperm2 hs2 hs1
  unfold memoryTaskRun.inputsSorted
  rw [hsame]

/-- Witness for C5: the diamond scenario with the two predecessor results
collected in reversed completion order still delivers them in edge-index
order. -/
theorem inputs_sorted_by_edge_index_witness :
    List.Perm mRev.inputs mOrd.inputs ∧
    List.Pairwise (fun a b => a.index ≠ b.index) mOrd.inputs ∧
    mRev.inputsSorted = mOrd.inputsSorted :=
  ⟨by decide, by decide,
    (inputs_sorted_by_edge_index mOrd).2.2 mRev (by decide) (by decide)⟩

/-- C8: the Run synthesized by panickedRunResults has FinishedAt equal to
its CreatedAt and PipelineSpecID equal to the spec's ID, whatever the
re-parse does. -/
theorem panicked_run_finishedAt_createdAt (E : Externals) (spec : Spec) (c : Clock) :
    (panickedRunResults E spec c).1.1.finishedAt =
      some (panickedRunResults E spec c).1.1.createdAt ∧
    (panickedRunResults E spec c).1.1.pipelineSpecID = spec.id := by
  cases hp : E.parse spec.dotDagSource with
  | error e => simp [panickedRunResults, tick, hp]
  | ok p => simp [panickedRunResults, tick, hp]

/-- C1: when every attempt signals retry, ExecuteRun's loop performs
exactly numPanicRetries = 5 attempts, and after the 5th failed attempt it
returns the synthesized panicked run in which, for every task of the parsed
DAG, there is one TaskRunResult whose Result.Error equals ErrRunPanicked
and whose Result.Value is nil. -/
theorem retry_exhaustion_panicked_run (E : Externals) (spec : Spec)
    (attempt : Clock → ExecuteRunOut × Clock) (p : Pipeline) (c : Clock)
    (hretry : ∀ c1, (attempt c1).1.retry = true)
    (hp : E.parse spec.dotDagSource = Except.ok p) :
    (panicRetryLoop attempt 0 numPanicRetries c).1.calls = numPanicRetries ∧
    (panicRetryLoop attempt 0 numPanicRetries c).1.i = numPanicRetries ∧
    ExecuteRunG attempt E spec c =
      panickedRunResults E spec (iterClock attempt numPanicRetries c) ∧
    ∃ run trrs c1,
      ExecuteRunG attempt E spec c = ((run, trrs, none), c1) ∧
      (trrs.map fun trr => trr.task) = p.tasks ∧
      ∀ trr ∈ trrs, trr.result.error = some GoError.errRunPanicked ∧
        trr.result.value = none := by
  have hloop := panicRetryLoop_all_retry attempt hretry numPanicRetries 0 c
  have hG : ExecuteRunG attempt E spec c =
      panickedRunResults E spec (iterClock attempt numPanicRetries c) := by
    unfold ExecuteRunG
    rw [hloop]
  obtain ⟨run, trrs, c1, heq, hmap, hmem⟩ :=
    panickedRunResults_ok E spec (iterClock attempt numPanicRetries c) p hp
  exact ⟨by rw [hloop], by rw [hloop]; rfl, hG, run, trrs, c1, by rw [hG, heq], hmap, hmem⟩

/-- Witness for C1: an always-retrying attempt under a one-task DAG. -/
theorem retry_exhaustion_panicked_run_witness :
    (∀ c1, (alwaysRetryAttempt c1).1.retry = true) ∧
    extOk.parse specZero.dotDagSource = Except.ok pipeA ∧
    ((panicRetryLoop alwaysRetryAttempt 0 numPanicRetries 0).1.calls = numPanicRetries ∧
     (panicRetryLoop alwaysRetryAttempt 0 numPanicRetries 0).1.i = numPanicRetries ∧
     ExecuteRunG alwaysRetryAttempt extOk specZero 0 =
       panickedRunResults extOk specZero (iterClock alwaysRetryAttempt numPanicRetries 0) ∧
     ∃ run trrs c1,
       ExecuteRunG alwaysRetryAttempt extOk specZero 0 = ((run, trrs, none), c1) ∧
       (trrs.map fun trr => trr.task) = pipeA.tasks ∧
       ∀ trr ∈ trrs, trr.result.error = some GoError.errRunPanicked ∧
         trr.result.value = none) :=
  ⟨fun _ => rfl, rfl,
    retry_exhaustion_panicked_run extOk specZero alwaysRetryAttempt pipeA 0
      (fun _ => rfl) rfl⟩

/-- C2: executeRun returns retry = false on both of its return paths, so
ExecuteRun's loop makes exactly one executeRun call, exits with the Go loop
variable still 0, keeps that attempt's output, and never reaches the
panicked-run synthesis branch. -/
theorem executeRun_never_retries (E : Externals) (spec : Spec)
    (pipelineInput : Option GoVal) (meta : JSONSerializable) (ctx : CallerCtx)
    (c : Clock) :
    (executeRun E spec pipelineInput meta ctx c).1.1.retry = false ∧
    (panicRetryLoop (execAttempt E spec pipelineInput meta ctx) 0 numPanicRetries c).1.calls = 1 ∧
    (panicRetryLoop (execAttempt E spec pipelineInput meta ctx) 0 numPanicRetries c).1.i = 0 ∧
    (panicRetryLoop (execAttempt E spec pipelineInput meta ctx) 0 numPanicRetries c).1.out =
      some (executeRun E spec pipelineInput meta ctx c).1.1 ∧
    ExecuteRun E spec pipelineInput meta ctx c =
      (((executeRun E spec pipelineInput meta ctx c).1.1.run,
        (executeRun E spec pipelineInput meta ctx c).1.1.trrs,
        (executeRun E spec pipelineInput meta ctx c).1.1.err),
       (executeRun E spec pipelineInput meta ctx c).2) := by
  have hretry : (executeRun E spec pipelineInput meta ctx c).1.1.retry = false := by
    cases hp : E.parse spec.dotDagSource with
    | error e => simp [executeRun, tick, hp]
    | ok p => simp [executeRun, tick, hp]
  have hattempt : (execAttempt E spec pipelineInput meta ctx c).1.retry = false := hretry
  have hloop : panicRetryLoop (execAttempt E spec pipelineInput meta ctx) 0 numPanicRetries c =
      ({ i := 0, calls := 1, out := some (execAttempt E spec pipelineInput meta ctx c).1 },
       (execAttempt E spec pipelineInput meta ctx c).2) :=
    panicRetryLoop_noRetry (execAttempt E spec pipelineInput meta ctx) 0 4 c hattempt
  refine ⟨hretry, by rw [hloop], by rw [hloop], by rw [hloop]; rfl, ?_⟩
  unfold ExecuteRun ExecuteRunG
  rw [hloop]
  rfl

/-- C6: a task panic is trapped inside the worker, which always returns a
TaskRunResult; the synthetic result carries Result.Error = panicError of
the panic value (and Value nil). -/
theorem task_panic_trapped (spec : Spec) (m : memoryTaskRun) (meta : JSONSerializable)
    (ctx : CallerCtx) (c : Clock) (v : String)
    (hpanic : m.task.runFn (taskRunArgs spec m ctx).1 m.vars meta (taskRunArgs spec m ctx).2 =
      RunOutcome.panicked v) :
    worker spec m meta ctx c =
      ({ task := m.task,
         result := { value := none, error := some (GoError.panicError v) },
         createdAt := 0, finishedAt := c + 1 }, c + 2) := by
  unfold worker executeTaskRun tick
  rw [hpanic]

/-- Witness for C6: the panicking fixture task at clock 5. -/
theorem task_panic_trapped_witness :
    mBoom.task.runFn (taskRunArgs specZero mBoom ctxZ).1 mBoom.vars metaZ
        (taskRunArgs specZero mBoom ctxZ).2 = RunOutcome.panicked "boom" ∧
    worker specZero mBoom metaZ ctxZ 5 =
      ({ task := mBoom.task,
         result := { value := none, error := some (GoError.panicError "boom") },
         createdAt := 0, finishedAt := 6 }, 7) :=
  ⟨rfl, task_panic_trapped specZero mBoom metaZ ctxZ 5 "boom" rfl⟩

/-- C7 evaluation at the failing input: the worker starting at instant 5
posts, for a panicking task, a synthetic TaskRunResult whose CreatedAt is
the zero time 0 and not the worker's start instant 5, while the normal path
does set CreatedAt to the start instant. -/
theorem panic_path_createdAt_zero :
    (worker specZero mBoom metaZ ctxZ 5).1.createdAt = 0 ∧
    executeTaskRun specZero mA metaZ ctxZ 5 =
      (ExecOutcome.ok { task := taskA, result := {}, createdAt := 5, finishedAt := 6 }, 7) ∧
    (0 : Time) ≠ 5 :=
  ⟨rfl, rfl, by decide⟩

/-- C9: on a parse failure executeRun returns the parse error untouched
with a Run that has no FinishedAt and empty Outputs and Errors, no
TaskRunResults, and its event trace shows no task priming, no scheduler
construction and no worker spawn; ExecuteRun forwards exactly that error
and Run. -/
theorem parse_error_immediate_return (E : Externals) (spec : Spec)
    (pipelineInput : Option GoVal) (meta : JSONSerializable) (ctx : CallerCtx)
    (c : Clock) (e : GoError)
    (hp : E.parse spec.dotDagSource = Except.error e) :
    executeRun E spec pipelineInput meta ctx c =
      (({ run := { pipelineSpecID := spec.id, createdAt := c },
          trrs := [], retry := false, err := some e }, [Event.parsed]), c + 1) ∧
    Event.primedTasks ∉ (executeRun E spec pipelineInput meta ctx c).1.2 ∧
    Event.schedulerConstructed ∉ (executeRun E spec pipelineInput meta ctx c).1.2 ∧
    (∀ d, Event.workerSpawned d ∉ (executeRun E spec pipelineInput meta ctx c).1.2) ∧
    ExecuteRun E spec pipelineInput meta ctx c =
      (({ pipelineSpecID := spec.id, createdAt := c }, [], some e), c + 1) := by
  have hex : executeRun E spec pipelineInput meta ctx c =
      (({ run := { pipelineSpecID := spec.id, createdAt := c },
          trrs := [], retry := false, err := some e }, [Event.parsed]), c + 1) := by
    unfold executeRun tick
    rw [hp]
  have hatt : execAttempt E spec pipelineInput meta ctx c =
      ({ run := { pipelineSpecID := spec.id, createdAt := c },
         trrs := [], retry := false, err := some e }, c + 1) := by
    unfold execAttempt
    rw [hex]
  have hattempt : (execAttempt E spec pipelineInput meta ctx c).1.retry = false := by
    rw [hatt]
  have hloop : panicRetryLoop (execAttempt E spec pipelineInput meta ctx) 0 numPanicRetries c =
      ({ i := 0, calls := 1, out := some (execAttempt E spec pipelineInput meta ctx c).1 },
       (execAttempt E spec pipelineInput meta ctx c).2) :=
    panicRetryLoop_noRetry (execAttempt E spec pipelineInput meta ctx) 0 4 c hattempt
  refine ⟨hex, ?_, ?_, ?_, ?_⟩
  · rw [hex]
    show Event.primedTasks ∉ [Event.parsed]
    decide
  · rw [hex]
    show Event.schedulerConstructed ∉ [Event.parsed]
    decide
  · intro d
    rw [hex]
    show Event.workerSpawned d ∉ [Event.parsed]
    simp
  · unfold ExecuteRun ExecuteRunG
    rw [hloop, hatt]

/-- Witness for C9: the failing-parse fixture. -/
theorem parse_error_immediate_return_witness :
    extParseFail.parse specZero.dotDagSource = Except.error (GoError.other "bad dag") ∧
    executeRun extParseFail specZero none metaZ ctxZ 0 =
      (({ run := { pipelineSpecID := specZero.id, createdAt := 0 },
          trrs := [], retry := false, err := some (GoError.other "bad dag") },
        [Event.parsed]), 1) ∧
    ExecuteRun extParseFail specZero none metaZ ctxZ 0 =
      (({ pipelineSpecID := specZero.id, createdAt := 0 }, [],
        some (GoError.other "bad dag")), 1) :=
  ⟨rfl,
    (parse_error_immediate_return extParseFail specZero none metaZ ctxZ 0
      (GoError.other "bad dag") rfl).1,
    (parse_error_immediate_return extParseFail specZero none metaZ ctxZ 0
      (GoError.other "bad dag") rfl).2.2.2.2⟩

/-- C10: if ExecuteRun succeeds but the insert fails,
ExecuteAndInsertFinishedRun still returns the FinalResult computed from the
executed task-run results together with the wrapped persistence error; if
ExecuteRun itself fails, the returned FinalResult is the zero value. -/
theorem insert_failure_keeps_finalResult (E : Externals) (spec : Spec)
    (pipelineInput : Option GoVal) (meta : JSONSerializable) (ctx : CallerCtx)
    (save : Bool) (c : Clock) :
    (∀ run trrs c1,
        ExecuteRun E spec pipelineInput meta ctx c = ((run, trrs, none), c1) →
        ∀ runID e, E.insertFinishedRun run trrs save = (runID, some e) →
        (ExecuteAndInsertFinishedRun E spec pipelineInput meta ctx save c).1 =
          (runID, E.finalResult trrs, some (wrapInsertErr spec e))) ∧
    (∀ run trrs e c1,
        ExecuteRun E spec pipelineInput meta ctx c = ((run, trrs, some e), c1) →
        (ExecuteAndInsertFinishedRun E spec pipelineInput meta ctx save c).1 =
          (run.id, FinalResult.zero, some (wrapExecErr spec e))) := by
  constructor
  · intro run trrs c1 hexec runID e hins
    simp [ExecuteAndInsertFinishedRun, hexec, hins]
  · intro run trrs e c1 hexec
    simp [ExecuteAndInsertFinishedRun, hexec]

/-- Witness for C10: a run that executes but fails to insert keeps its
FinalResult; a run whose execution fails returns the zero FinalResult. -/
theorem insert_failure_keeps_finalResult_witness :
    ExecuteRun extInsertFail specZero none metaZ ctxZ 0 = ((runZ, [trrZ], none), 4) ∧
    extInsertFail.insertFinishedRun runZ [trrZ] true = (0, some (GoError.other "db down")) ∧
    (ExecuteAndInsertFinishedRun extInsertFail specZero none metaZ ctxZ true 0).1 =
      (0, extInsertFail.finalResult [trrZ], some (wrapInsertErr specZero (GoError.other "db down"))) ∧
    ExecuteRun extParseFail specZero none metaZ ctxZ 0 =
      ((runP, [], some (GoError.other "bad dag")), 1) ∧
    (ExecuteAndInsertFinishedRun extParseFail specZero none metaZ ctxZ true 0).1 =
      (runP.id, FinalResult.zero, some (wrapExecErr specZero (GoError.other "bad dag"))) :=
  ⟨rfl, rfl,
    (insert_failure_keeps_finalResult extInsertFail specZero none metaZ ctxZ true 0).1
      runZ [trrZ] 4 rfl 0 (GoError.other "db down") rfl,
    rfl,
    (insert_failure_keeps_finalResult extParseFail specZero none metaZ ctxZ true 0).2
      runP [] (GoError.other "bad dag") 1 rfl⟩

end PipelineProof
